import Mathlib

/-!
Verification of the Babblefish client networking layer.

This file gives a shallow embedding, in Lean 4, of the pure logic of the
Babblefish browser client: the message constructors and validators of
`client/src/network/protocol.js`, the room-state machine of
`client/src/network/room.js`, the reconnect backoff of
`client/src/network/websocket.js`, the join form of the join page, and the
transcript / auto-synthesis effects of `RoomPage.jsx`.  JavaScript runtime
values are modelled by the inductive type `JsValue`; object field access,
`typeof`, strict equality and truthiness are modelled by total Lean
functions mirroring the JavaScript semantics the client code relies on.
-/

/-- A JavaScript runtime value, as far as the client networking code
inspects them: strings, numbers, booleans, `null`, `undefined`, plain
objects (ordered field lists) and arrays. -/
inductive JsValue where
  | str (s : String)
  | num (n : Int)
  | bool (b : Bool)
  | null
  | undefined
  | obj (fields : List (String × JsValue))
  | arr (elems : List JsValue)
deriving Repr

namespace JsValue

/-- The string `typeof v` evaluates to in JavaScript.  Note that
`typeof null`, `typeof {}` and `typeof []` are all the string
`"object"`. -/
def typeofStr : JsValue → String
  | .str _ => "string"
  | .num _ => "number"
  | .bool _ => "boolean"
  | .null => "object"
  | .undefined => "undefined"
  | .obj _ => "object"
  | .arr _ => "object"

/-- Property access `v[k]`: on an object it returns the bound value or
`undefined` when the key is absent; the client code only reads fields of
objects, so every other case is modelled as `undefined`. -/
def getField : JsValue → String → JsValue
  | .obj fs, k =>
    match fs.lookup k with
    | some v => v
    | none => .undefined
  | _, _ => .undefined

/-- JavaScript strict equality `===` restricted to the comparisons the
client performs: primitive values compare by value; two object or array
values built independently are distinct references, hence `false`. -/
def jsStrictEq : JsValue → JsValue → Bool
  | .str a, .str b => a == b
  | .num a, .num b => a == b
  | .bool a, .bool b => a == b
  | .null, .null => true
  | .undefined, .undefined => true
  | _, _ => false

/-- JavaScript truthiness of a value, as used in `if` and `&&`. -/
def truthy : JsValue → Bool
  | .str s => s ≠ ""
  | .num n => n ≠ 0
  | .bool b => b
  | .null => false
  | .undefined => false
  | .obj _ => true
  | .arr _ => true

end JsValue

/-!
## protocol.js
-/

/-- `createPingMessage()` from `protocol.js`: despite the spec, the
constructed message carries a `timestamp` field next to the `type`
discriminator.  `now` stands for `Date.now()`. -/
def createPingMessage (now : Int) : JsValue :=
  .obj [("type", .str "ping"), ("timestamp", .num now)]

/-- The heartbeat payload `{ type: 'ping', timestamp: Date.now() }` sent by
`WebSocketManager.startHeartbeat` in `websocket.js`. -/
def heartbeatPingMessage (now : Int) : JsValue :=
  .obj [("type", .str "ping"), ("timestamp", .num now)]

/-- `parseMessage(data)` from `protocol.js`.  `JSON.parse` is abstracted by
`jsonParse`; a parse that throws is a `none` result, which the
`catch` block converts into `null`.  Non-string inputs are returned
unchanged. -/
def parseMessage (jsonParse : String → Option JsValue) (data : JsValue) : JsValue :=
  match data with
  | .str s =>
    match jsonParse s with
    | some v => v
    | none => .null
  | other => other

/-- `validateTranslationMessage(msg)` from `protocol.js` (both file
variants are identical): a chain of `typeof` checks.  The check on
`translations` is only `typeof msg.translations === 'object'`. -/
def validateTranslationMessage (msg : JsValue) : Bool :=
  JsValue.jsStrictEq (msg.getField "type") (.str "translation") &&
  (msg.getField "speaker_id").typeofStr == "string" &&
  (msg.getField "speaker_name").typeofStr == "string" &&
  (msg.getField "source_lang").typeofStr == "string" &&
  (msg.getField "source_text").typeofStr == "string" &&
  (msg.getField "translations").typeofStr == "object" &&
  (msg.getField "timestamp").typeofStr == "number"

/-- The schema the spec states for a `translation` message: the five string
fields, a `translations` object every entry of which is a string, and a
numeric timestamp.  Written from the spec wording, to be compared with
`validateTranslationMessage`. -/
def specTranslationSchema (msg : JsValue) : Bool :=
  JsValue.jsStrictEq (msg.getField "type") (.str "translation") &&
  (msg.getField "speaker_id").typeofStr == "string" &&
  (msg.getField "speaker_name").typeofStr == "string" &&
  (msg.getField "source_lang").typeofStr == "string" &&
  (msg.getField "source_text").typeofStr == "string" &&
  (match msg.getField "translations" with
   | .obj fs => fs.all fun e => e.2.typeofStr == "string"
   | _ => false) &&
  (msg.getField "timestamp").typeofStr == "number"

/-!
## room.js — `RoomState`
-/

/-- One element of the `participants` array of a `joined` message:
`{id, name, language}`. -/
structure Participant where
  id : String
  name : String
  language : String
deriving Repr, DecidableEq

/-- The value `RoomState` stores per participant: the fields copied from
the message plus the `joinedAt: Date.now()` stamp. -/
structure StoredParticipant where
  id : String
  name : String
  language : String
  joinedAt : Nat
deriving Repr, DecidableEq

/-- The fields of the JavaScript class `RoomState` in `room.js`.  The
`participants` JavaScript `Map` is modelled by an insertion-ordered
association list with unique keys. -/
structure RoomState where
  roomId : Option String
  participantId : Option String
  participants : List (String × StoredParticipant)
  isJoined : Bool
deriving Repr, DecidableEq

/-- The `RoomState` constructor: empty map, not joined. -/
def RoomState.init : RoomState :=
  { roomId := none, participantId := none, participants := [], isJoined := false }

/-- JavaScript `Map.prototype.set`: when the key is present the bound value
is replaced in place, otherwise the pair is appended in insertion order. -/
def mapSet (m : List (String × StoredParticipant)) (k : String) (v : StoredParticipant) :
    List (String × StoredParticipant) :=
  if (m.lookup k).isSome then
    m.map fun e => if e.1 = k then (k, v) else e
  else
    m ++ [(k, v)]

/-- The `joined` acknowledgement message as `RoomState.handleJoined` reads
it.  `participants` is optional because the code guards with
`message.participants && Array.isArray(message.participants)`. -/
structure JoinedMsg where
  room_id : String
  participant_id : String
  participants : Option (List Participant)
deriving Repr

/-- `RoomState.handleJoined(message)` from `room.js`: record room id,
participant id and the joined flag, then `Map.set` every listed
participant.  `now` stands for `Date.now()`. -/
def RoomState.handleJoined (st : RoomState) (msg : JoinedMsg) (now : Nat) : RoomState :=
  let st1 := { st with
    roomId := some msg.room_id
    participantId := some msg.participant_id
    isJoined := true }
  match msg.participants with
  | some ps =>
    { st1 with
      participants := ps.foldl
        (fun m p => mapSet m p.id ⟨p.id, p.name, p.language, now⟩)
        st1.participants }
  | none => st1

/-- `RoomState.handleParticipantLeft(message)` from `room.js`: delete the
entry only when `Map.has` finds it; otherwise nothing changes. -/
def RoomState.handleParticipantLeft (st : RoomState) (pid : String) : RoomState :=
  if (st.participants.lookup pid).isSome then
    { st with participants := st.participants.filter fun e => e.1 ≠ pid }
  else
    st

/-- JavaScript `Set.prototype.add` on an insertion-ordered set of
strings. -/
def setAdd (s : List String) (x : String) : List String :=
  if x ∈ s then s else s ++ [x]

/-- `RoomState.getLanguages()` from `room.js`: walk the participants map,
add each `language` to a `Set`, return `Array.from` of it. -/
def RoomState.getLanguages (st : RoomState) : List String :=
  st.participants.foldl (fun s e => setAdd s e.2.language) []

/-!
## JoinPage (join form)
-/

/-- The character table of `generateRoomId` in the join page. -/
def roomIdChars : List Char := "ABCDEFGHJKLMNPQRSTUVWXYZ23456789".toList

/-- `generateRoomId()` from the join page: six characters drawn from
`roomIdChars`.  `rand i` stands for `Math.floor(Math.random() * 32)` at the
i-th loop iteration; `Math.random()` lies in `[0, 1)`, so every such index
is `< 32`, which theorems take as a hypothesis. -/
def generateRoomId (rand : Nat → Nat) : String :=
  String.mk ((List.range 6).map fun i => roomIdChars.getD (rand i) ' ')

/-- The room-code shape `[A-Z2-9]{6}` the spec fixes for `join`. -/
def isRoomIdShape (s : String) : Bool :=
  s.length == 6 &&
  s.toList.all fun c => ('A' ≤ c && c ≤ 'Z') || ('2' ≤ c && c ≤ '9')

/-- JavaScript `String.prototype.trim`: strip leading and trailing
whitespace. -/
def jsTrim (s : String) : String :=
  String.mk (((s.toList.dropWhile Char.isWhitespace).reverse.dropWhile
    Char.isWhitespace).reverse)

/-- JavaScript `String.prototype.toUpperCase` on the ASCII range the form
handles. -/
def jsToUpperCase (s : String) : String :=
  String.mk (s.toList.map Char.toUpper)

/-- `handleJoin` from the join page, reduced to its data flow: it submits
`{name: name.trim(), roomId: roomId.trim().toUpperCase(), language}` iff
the trimmed name and room id are non-empty and a language is selected;
otherwise it sets an error and submits nothing. -/
def handleJoin (name roomId language : String) : Option (String × String × String) :=
  if jsTrim name = "" then none
  else if jsTrim roomId = "" then none
  else if language = "" then none
  else some (jsTrim name, jsToUpperCase (jsTrim roomId), language)

/-!
## websocket.js — reconnect backoff
-/

/-- The `WebSocketManager` fields that `scheduleReconnect` reads and
writes.  The constructor sets `reconnectAttempts = 0`,
`maxReconnectAttempts = 10`, `reconnectDelay = 1000`,
`maxReconnectDelay = 30000`; `onopen` resets the first and third back to
their initial values before any later backoff. -/
structure WsState where
  reconnectAttempts : Nat
  maxReconnectAttempts : Nat
  reconnectDelay : Nat
  maxReconnectDelay : Nat
deriving Repr, DecidableEq

/-- The `WebSocketManager` constructor values relevant to reconnects. -/
def WsState.init : WsState :=
  { reconnectAttempts := 0, maxReconnectAttempts := 10
    reconnectDelay := 1000, maxReconnectDelay := 30000 }

/-- `WebSocketManager.scheduleReconnect` from `websocket.js`: when the
attempt counter has reached the maximum, nothing is scheduled; otherwise
the counter is incremented and a timer of
`min(reconnectDelay * 2 ^ (attempts - 1), maxReconnectDelay)` milliseconds
is returned. -/
def scheduleReconnect (st : WsState) : WsState × Option Nat :=
  if st.reconnectAttempts ≥ st.maxReconnectAttempts then
    (st, none)
  else
    let attempts := st.reconnectAttempts + 1
    let delay := min (st.reconnectDelay * 2 ^ (attempts - 1)) st.maxReconnectDelay
    ({ st with reconnectAttempts := attempts }, some delay)

/-!
## RoomPage.jsx — transcript and auto-synthesis effects
-/

/-- The filter of the translation-messages effect:
`messages.filter(m => m.type === MessageType.TRANSLATION)`. -/
def isTranslationType (m : JsValue) : Bool :=
  JsValue.jsStrictEq (m.getField "type") (.str "translation")

/-- The translation-messages effect of `RoomPage`: every received message
whose `type` is `'translation'` is appended to the transcript state,
with no condition on `speaker_id` or on the `translations` map. -/
def appendTranslations (prev msgs : List JsValue) : List JsValue :=
  prev ++ msgs.filter isTranslationType

/-- The guard of the auto-synthesize effect of `RoomPage`:
`latest.translations && latest.translations[lang] && latest.speaker_id !== participantId`.
`participantId` is `room.participantId` as a JavaScript value (a string
once joined, `null` before). -/
def shouldSynthesize (latest : JsValue) (lang : String) (participantId : JsValue) : Bool :=
  (latest.getField "translations").truthy &&
  ((latest.getField "translations").getField lang).truthy &&
  !(JsValue.jsStrictEq (latest.getField "speaker_id") participantId)

/-!
## Concrete sample values used by witnesses and counterexamples
-/

/-- A well-formed `translation` message whose `speaker_id` is `P_01`. -/
def ownSpeakerMsg : JsValue :=
  .obj [("type", .str "translation"), ("speaker_id", .str "P_01"),
        ("speaker_name", .str "Alice"), ("source_lang", .str "en"),
        ("source_text", .str "hi"),
        ("translations", .obj [("en", .str "hi")]),
        ("timestamp", .num 100)]

/-- A `translation` message whose `translations` map has an `es` entry but
no `en` entry. -/
def missingTargetMsg : JsValue :=
  .obj [("type", .str "translation"), ("speaker_id", .str "P_03"),
        ("speaker_name", .str "Carol"), ("source_lang", .str "es"),
        ("source_text", .str "hola"),
        ("translations", .obj [("es", .str "hola")]),
        ("timestamp", .num 200)]

/-- A message that passes every `typeof` check of
`validateTranslationMessage` although its `translations` field is `null`
(recall `typeof null === 'object'` in JavaScript). -/
def nullTranslationsMsg : JsValue :=
  .obj [("type", .str "translation"), ("speaker_id", .str "P_01"),
        ("speaker_name", .str "Alice"), ("source_lang", .str "en"),
        ("source_text", .str "hi"),
        ("translations", .null),
        ("timestamp", .num 100)]

/-- A small joined room used to exercise the room-state operations. -/
def sampleRoom : RoomState :=
  { roomId := some "ABCDEF", participantId := some "P_01",
    participants := [("P_02", ⟨"P_02", "Bob", "es", 5⟩)], isJoined := true }

/-- A JSON parser stub: `"42"` parses, everything else throws. -/
def jsonParseStub (s : String) : Option JsValue :=
  if s = "42" then some (.num 42) else none

/-!
## Theorems
-/

/-- **C1, counterexample.**  The claim says a received `translation` whose
`speaker_id` equals the local participant id is neither appended to the
transcript nor synthesized.  The transcript effect of `RoomPage` filters
only on `type`, so a message from the local participant itself (id `P_01`)
is appended to the transcript. -/
theorem own_translation_is_appended :
    JsValue.jsStrictEq (ownSpeakerMsg.getField "speaker_id") (.str "P_01") = true ∧
    appendTranslations [] [ownSpeakerMsg] = [ownSpeakerMsg] :=
  ⟨rfl, rfl⟩

/-- **C1, amended.**  Speaker exclusion holds for synthesis only: the
auto-synthesize guard of `RoomPage` rejects every message whose
`speaker_id` strictly equals the local participant id, while the
transcript effect appends every `translation` message regardless of
speaker. -/
theorem own_translation_never_synthesized (latest : JsValue) (lang : String)
    (participantId : JsValue)
    (h : JsValue.jsStrictEq (latest.getField "speaker_id") participantId = true) :
    shouldSynthesize latest lang participantId = false := by
  simp [shouldSynthesize, h]

/-- **C1, witness.** -/
theorem own_translation_never_synthesized_witness :
    shouldSynthesize ownSpeakerMsg "en" (.str "P_01") = false :=
  own_translation_never_synthesized ownSpeakerMsg "en" (.str "P_01") rfl

/-- **C2.**  A `translation` message with no entry for the receiving
participant language is still appended to the transcript, and the
auto-synthesize guard evaluates to `false` for it, so no synthesis is
attempted and no error path exists (all the involved functions are
total). -/
theorem missing_target_tolerated (prev msgs : List JsValue) (m : JsValue)
    (lang : String) (participantId : JsValue)
    (hm : m ∈ msgs) (ht : isTranslationType m = true)
    (hmiss : (m.getField "translations").getField lang = JsValue.undefined) :
    m ∈ appendTranslations prev msgs ∧
    shouldSynthesize m lang participantId = false := by
  constructor
  · exact List.mem_append_right _ (List.mem_filter.mpr ⟨hm, ht⟩)
  · simp [shouldSynthesize, hmiss, JsValue.truthy]

/-- **C2, witness.** -/
theorem missing_target_tolerated_witness :
    missingTargetMsg ∈ appendTranslations [] [missingTargetMsg] ∧
    shouldSynthesize missingTargetMsg "en" (.str "P_02") = false :=
  missing_target_tolerated [] [missingTargetMsg] missingTargetMsg "en" (.str "P_02")
    (List.mem_singleton.mpr rfl) rfl rfl

/-- **C7.**  `RoomState.handleParticipantLeft` with an id that is not in
the participants map leaves the state unchanged, so processing a second
leave for the same id is a no-op. -/
theorem handleParticipantLeft_absent_noop (st : RoomState) (pid : String)
    (h : st.participants.lookup pid = none) :
    st.handleParticipantLeft pid = st := by
  unfold RoomState.handleParticipantLeft
  rw [h]
  simp

/-- **C7, witness.** -/
theorem handleParticipantLeft_absent_noop_witness :
    sampleRoom.handleParticipantLeft "P_09" = sampleRoom :=
  handleParticipantLeft_absent_noop sampleRoom "P_09" rfl

/-- **C8, counterexample.**  The claim says a `ping` message consists of
the `type` discriminator only.  Both the `createPingMessage` constructor
and the heartbeat payload carry a `timestamp` field (a message of the
claimed shape would have `getField "timestamp" = undefined`), so neither
equals the one-field object. -/
theorem ping_carries_timestamp :
    (createPingMessage 123).getField "timestamp" = JsValue.num 123 ∧
    (heartbeatPingMessage 123).getField "timestamp" = JsValue.num 123 ∧
    createPingMessage 123 ≠ JsValue.obj [("type", JsValue.str "ping")] := by
  refine ⟨rfl, rfl, ?_⟩
  intro h
  simp [createPingMessage] at h

/-- **C8, amended.**  Every `ping` the client constructs — via
`createPingMessage` or the heartbeat loop — is exactly
`{ type: 'ping', timestamp: Date.now() }`: the discriminator plus one
`timestamp` field and nothing else. -/
theorem ping_message_fields (now : Int) :
    createPingMessage now
      = JsValue.obj [("type", JsValue.str "ping"), ("timestamp", JsValue.num now)] ∧
    heartbeatPingMessage now = createPingMessage now :=
  ⟨rfl, rfl⟩

/-- **C9.**  `parseMessage` is total: a string that parses yields the
parsed value, a string whose parse throws yields `null` (the exception is
swallowed by the `catch` block), and a non-string input is returned
unchanged. -/
theorem parseMessage_total (jsonParse : String → Option JsValue) (data : JsValue) :
    (∀ s v, data = JsValue.str s → jsonParse s = some v →
      parseMessage jsonParse data = v) ∧
    (∀ s, data = JsValue.str s → jsonParse s = none →
      parseMessage jsonParse data = JsValue.null) ∧
    (data.typeofStr ≠ "string" → parseMessage jsonParse data = data) := by
  refine ⟨?_, ?_, ?_⟩
  · rintro s v rfl hv
    simp [parseMessage, hv]
  · rintro s rfl hv
    simp [parseMessage, hv]
  · intro hs
    cases data <;> simp_all [parseMessage, JsValue.typeofStr]

/-- **C9, witness.** -/
theorem parseMessage_total_witness :
    parseMessage jsonParseStub (JsValue.str "42") = JsValue.num 42 ∧
    parseMessage jsonParseStub (JsValue.str "oops") = JsValue.null ∧
    parseMessage jsonParseStub (JsValue.num 7) = JsValue.num 7 :=
  ⟨(parseMessage_total jsonParseStub _).1 "42" _ rfl (by simp [jsonParseStub]),
   (parseMessage_total jsonParseStub _).2.1 "oops" rfl (by simp [jsonParseStub]),
   (parseMessage_total jsonParseStub _).2.2 (by simp [JsValue.typeofStr])⟩

/-- `typeof v === 'string'` holds exactly on string values. -/
theorem typeofStr_eq_string_iff (v : JsValue) :
    (v.typeofStr == "string") = true ↔ ∃ s, v = JsValue.str s := by
  cases v <;> simp [JsValue.typeofStr]

/-- `typeof v === 'number'` holds exactly on numeric values. -/
theorem typeofStr_eq_number_iff (v : JsValue) :
    (v.typeofStr == "number") = true ↔ ∃ n, v = JsValue.num n := by
  cases v <;> simp [JsValue.typeofStr]

/-- `typeof v === 'object'` holds exactly on `null`, plain objects and
arrays. -/
theorem typeofStr_eq_object_iff (v : JsValue) :
    (v.typeofStr == "object") = true ↔
      v = JsValue.null ∨ (∃ fs, v = JsValue.obj fs) ∨ (∃ es, v = JsValue.arr es) := by
  cases v <;> simp [JsValue.typeofStr]

/-- Strict equality against a string literal holds exactly on that
string. -/
theorem jsStrictEq_str_right_iff (v : JsValue) (c : String) :
    JsValue.jsStrictEq v (JsValue.str c) = true ↔ v = JsValue.str c := by
  cases v <;> simp [JsValue.jsStrictEq]

/-- **C5, counterexample.**  The claim states an iff against the spec
schema, which requires `translations` to be an object mapping tags to
strings.  A message whose `translations` field is `null` passes
`validateTranslationMessage` — in JavaScript `typeof null === 'object'` —
yet fails the spec schema. -/
theorem validate_accepts_null_translations :
    validateTranslationMessage nullTranslationsMsg = true ∧
    specTranslationSchema nullTranslationsMsg = false :=
  ⟨rfl, rfl⟩

/-- **C5, amended.**  `validateTranslationMessage(msg)` returns `true` iff
`msg.type` is `'translation'`, the four speaker/text fields are strings,
`msg.timestamp` is a number, and `typeof msg.translations` is
`'object'` — a check satisfied by `null`, by arrays, and by objects with
arbitrary (not necessarily string) values. -/
theorem validateTranslationMessage_characterization (msg : JsValue) :
    validateTranslationMessage msg = true ↔
      (msg.getField "type" = JsValue.str "translation" ∧
       (∃ s, msg.getField "speaker_id" = JsValue.str s) ∧
       (∃ s, msg.getField "speaker_name" = JsValue.str s) ∧
       (∃ s, msg.getField "source_lang" = JsValue.str s) ∧
       (∃ s, msg.getField "source_text" = JsValue.str s) ∧
       (msg.getField "translations" = JsValue.null ∨
        (∃ fs, msg.getField "translations" = JsValue.obj fs) ∨
        (∃ es, msg.getField "translations" = JsValue.arr es)) ∧
       (∃ n, msg.getField "timestamp" = JsValue.num n)) := by
  simp only [validateTranslationMessage, Bool.and_eq_true, jsStrictEq_str_right_iff,
    typeofStr_eq_string_iff, typeofStr_eq_number_iff, typeofStr_eq_object_iff]
  tauto

/-- Membership in a JavaScript-style string set after `add`. -/
theorem mem_setAdd {s : List String} {x l : String} :
    l ∈ setAdd s x ↔ l ∈ s ∨ l = x := by
  unfold setAdd
  split
  · rename_i h
    constructor
    · exact Or.inl
    · rintro (hl | rfl)
      · exact hl
      · exact h
  · simp

/-- `Set.add` keeps the element list duplicate-free. -/
theorem nodup_setAdd {s : List String} {x : String} (h : s.Nodup) :
    (setAdd s x).Nodup := by
  unfold setAdd
  split
  · exact h
  · rename_i hx
    simp [List.nodup_append, h, hx]

/-- Membership after folding `setAdd` over the participants map. -/
theorem mem_foldl_setAdd (ps : List (String × StoredParticipant))
    (acc : List String) (l : String) :
    l ∈ ps.foldl (fun s e => setAdd s e.2.language) acc ↔
      l ∈ acc ∨ ∃ e ∈ ps, e.2.language = l := by
  induction ps generalizing acc with
  | nil => simp
  | cons p ps ih =>
    rw [List.foldl_cons, ih, mem_setAdd]
    simp only [List.mem_cons]
    constructor
    · rintro ((hl | rfl) | ⟨e, he, rfl⟩)
      · exact Or.inl hl
      · exact Or.inr ⟨p, Or.inl rfl, rfl⟩
      · exact Or.inr ⟨e, Or.inr he, rfl⟩
    · rintro (hl | ⟨e, (rfl | he), rfl⟩)
      · exact Or.inl (Or.inl hl)
      · exact Or.inl (Or.inr rfl)
      · exact Or.inr ⟨e, he, rfl⟩

/-- Folding `setAdd` preserves freedom from duplicates. -/
theorem nodup_foldl_setAdd (ps : List (String × StoredParticipant))
    (acc : List String) (h : acc.Nodup) :
    (ps.foldl (fun s e => setAdd s e.2.language) acc).Nodup := by
  induction ps generalizing acc with
  | nil => exact h
  | cons p ps ih => exact ih _ (nodup_setAdd h)

/-- **C6.**  `RoomState.getLanguages()` returns exactly the distinct
languages of the currently-present participants: a language is in the
result iff some participant holds it, and the result has no
duplicates (each value appears exactly once). -/
theorem getLanguages_distinct (st : RoomState) :
    (∀ l, l ∈ st.getLanguages ↔ ∃ e ∈ st.participants, e.2.language = l) ∧
    st.getLanguages.Nodup := by
  constructor
  · intro l
    rw [RoomState.getLanguages, mem_foldl_setAdd]
    simp
  · exact nodup_foldl_setAdd _ _ List.nodup_nil

/-- Every index below 32 picks, from the `generateRoomId` character table,
a character inside `[A-Z2-9]`. -/
theorem roomIdChars_in_shape :
    ∀ j < 32, ((('A' ≤ roomIdChars.getD j ' ' && roomIdChars.getD j ' ' ≤ 'Z') ||
      ('2' ≤ roomIdChars.getD j ' ' && roomIdChars.getD j ' ' ≤ '9')) = true) := by
  decide

/-- **C3, amended (generator half).**  For every sequence of
`Math.random` draws — any index function with values below the table
length 32 — `generateRoomId()` returns a six-character string matching
`[A-Z2-9]{6}`.  The claim fails on its second half: the join form performs
no shape validation, see the counterexample. -/
theorem generateRoomId_shape (rand : Nat → Nat) (h : ∀ i, rand i < 32) :
    isRoomIdShape (generateRoomId rand) = true := by
  unfold isRoomIdShape generateRoomId
  rw [Bool.and_eq_true]
  refine ⟨rfl, ?_⟩
  rw [List.all_eq_true]
  intro c hc
  have hl : (String.mk ((List.range 6).map fun i => roomIdChars.getD (rand i) ' ')).toList
      = (List.range 6).map fun i => roomIdChars.getD (rand i) ' ' := rfl
  rw [hl] at hc
  obtain ⟨i, _, rfl⟩ := List.mem_map.mp hc
  exact roomIdChars_in_shape (rand i) (h i)

/-- **C3, witness.** -/
theorem generateRoomId_shape_witness :
    isRoomIdShape (generateRoomId fun i => i % 32) = true :=
  generateRoomId_shape (fun i => i % 32) (fun i => Nat.mod_lt i (by decide))

/-- **C3, counterexample.**  The join form submits any room id that is
non-empty after trimming: with the typed input `"abc"` it submits
`"ABC"`, which does not match `[A-Z2-9]{6}`. -/
theorem join_form_submits_nonshape_id :
    handleJoin "Alice" "abc" "en" = some ("Alice", "ABC", "en") ∧
    isRoomIdShape "ABC" = false := by
  refine ⟨?_, rfl⟩
  decide

/-- A key absent from the key column of an association list has no
`lookup` binding. -/
theorem lookup_eq_none_of_not_mem_keys (m : List (String × StoredParticipant))
    (k : String) (h : k ∉ m.map Prod.fst) : m.lookup k = none := by
  induction m with
  | nil => rfl
  | cons e m ih =>
    simp only [List.map_cons, List.mem_cons] at h
    push_neg at h
    rw [List.lookup_cons]
    have hbeq : (k == e.1) = false := by simpa using h.1
    rw [hbeq]
    exact ih h.2

/-- Folding `Map.set` over participants whose ids are fresh and pairwise
distinct appends them in order. -/
theorem foldl_mapSet_fresh (ps : List Participant) (now : Nat)
    (acc : List (String × StoredParticipant))
    (hnd : (ps.map Participant.id).Nodup)
    (hfresh : ∀ p ∈ ps, p.id ∉ acc.map Prod.fst) :
    ps.foldl (fun m p => mapSet m p.id ⟨p.id, p.name, p.language, now⟩) acc
      = acc ++ ps.map fun p => (p.id, (⟨p.id, p.name, p.language, now⟩ : StoredParticipant)) := by
  induction ps generalizing acc with
  | nil => simp
  | cons p ps ih =>
    simp only [List.map_cons, List.nodup_cons] at hnd
    have hl : acc.lookup p.id = none :=
      lookup_eq_none_of_not_mem_keys acc p.id (hfresh p (List.mem_cons_self p ps))
    rw [List.foldl_cons]
    have hset : mapSet acc p.id ⟨p.id, p.name, p.language, now⟩
        = acc ++ [(p.id, ⟨p.id, p.name, p.language, now⟩)] := by
      rw [mapSet, hl]
      simp
    rw [hset, ih _ hnd.2]
    · simp
    · intro q hq
      simp only [List.map_append, List.mem_append]
      push_neg
      refine ⟨hfresh q (List.mem_cons_of_mem p hq), ?_⟩
      simp only [List.map_cons, List.map_nil, List.mem_singleton]
      intro hid
      exact hnd.1 (hid ▸ List.mem_map_of_mem Participant.id hq)

/-- **C4.**  On a fresh `RoomState`, `handleJoined(m)` records the room
id, the local participant id and the joined flag, and the participants
map afterwards holds exactly one entry per listed participant — keyed by
its id and carrying its name and language — provided, as the spec
guarantees for server-minted ids, the listed ids are distinct. -/
theorem handleJoined_correct (msg : JoinedMsg) (ps : List Participant) (now : Nat)
    (hps : msg.participants = some ps)
    (hnd : (ps.map Participant.id).Nodup) :
    (RoomState.init.handleJoined msg now).roomId = some msg.room_id ∧
    (RoomState.init.handleJoined msg now).participantId = some msg.participant_id ∧
    (RoomState.init.handleJoined msg now).isJoined = true ∧
    (RoomState.init.handleJoined msg now).participants
      = ps.map fun p => (p.id, (⟨p.id, p.name, p.language, now⟩ : StoredParticipant)) := by
  unfold RoomState.handleJoined
  rw [hps]
  refine ⟨rfl, rfl, rfl, ?_⟩
  simp only [RoomState.init]
  rw [foldl_mapSet_fresh ps now [] hnd (by simp)]
  simp

/-- **C4, witness.** -/
theorem handleJoined_correct_witness :
    (RoomState.init.handleJoined ⟨"ABCDEF", "P_01",
        some [⟨"P_02", "Bob", "es"⟩, ⟨"P_03", "Eve", "fr"⟩]⟩ 7).participants
      = [("P_02", ⟨"P_02", "Bob", "es", 7⟩), ("P_03", ⟨"P_03", "Eve", "fr", 7⟩)] := by
  have h := handleJoined_correct ⟨"ABCDEF", "P_01",
    some [⟨"P_02", "Bob", "es"⟩, ⟨"P_03", "Eve", "fr"⟩]⟩
    [⟨"P_02", "Bob", "es"⟩, ⟨"P_03", "Eve", "fr"⟩] 7 rfl (by decide)
  simpa using h.2.2.2

/-- **C10.**  With the constructor values (`reconnectDelay = 1000`,
`maxReconnectDelay = 30000`, `maxReconnectAttempts = 10`), the n-th call
to `scheduleReconnect` advances the attempt counter from `n - 1` to `n`
and schedules the reconnect after exactly
`min(1000 * 2 ^ (n - 1), 30000)` milliseconds; that delay is nondecreasing
in `n` and never exceeds 30000; and once the counter has reached 10 no
further attempt is scheduled. -/
theorem scheduleReconnect_backoff (n m : Nat) (h1 : 1 ≤ n) (h2 : n ≤ m)
    (h3 : m ≤ 10) :
    scheduleReconnect ⟨n - 1, 10, 1000, 30000⟩
      = (⟨n, 10, 1000, 30000⟩, some (min (1000 * 2 ^ (n - 1)) 30000)) ∧
    min (1000 * 2 ^ (n - 1)) 30000 ≤ min (1000 * 2 ^ (m - 1)) 30000 ∧
    min (1000 * 2 ^ (n - 1)) 30000 ≤ 30000 ∧
    (scheduleReconnect ⟨10, 10, 1000, 30000⟩).2 = none := by
  refine ⟨?_, ?_, min_le_right _ _, by simp [scheduleReconnect]⟩
  · have hlt : ¬ (n - 1 ≥ 10) := by omega
    have hn : n - 1 + 1 = n := by omega
    simp only [scheduleReconnect, hlt, if_false, hn]
  · exact min_le_min
      (Nat.mul_le_mul le_rfl (Nat.pow_le_pow_right (by norm_num) (by omega)))
      le_rfl

/-- **C10, witness.** -/
theorem scheduleReconnect_backoff_witness :
    scheduleReconnect ⟨2, 10, 1000, 30000⟩ = (⟨3, 10, 1000, 30000⟩, some 4000) := by
  have h := (scheduleReconnect_backoff 3 6 (by norm_num) (by norm_num) (by norm_num)).1
  simpa using h
